import Mathlib

/-! Verification of the async actor bridge in `src/asyncdb.rs` of leveldb-rs.

The bridge exposes a synchronous key-value store (`crate::DB`, external to
this repository) to concurrent callers through a worker thread that owns the
store and a snapshot registry, draining a FIFO queue of `Message`s and
replying on single-use channels. We embed the worker loop `run_server`, the
protocol types, and the client-side response handling, and model the external
store and channel primitives from the spec's stated boundary contract.
-/

set_option autoImplicit false

namespace AsyncDb

/-- Byte strings (`Vec<u8>`) are modelled as lists of naturals. -/
abbrev Bytes := List Nat

/-- Modelled from the spec: status codes of `crate::Status`. The async layer
only ever constructs `AsyncError`; store-level codes (I/O failure, corruption,
invalid argument, ...) are collapsed into an indexed `Store` constructor, since
the store engine is outside this repository. -/
inductive StatusCode where
  | AsyncError : StatusCode
  | Store : Nat → StatusCode
deriving DecidableEq

/-- Modelled from the spec: `crate::Status`, a status code plus a message. -/
structure Status where
  code : StatusCode
  err : String
deriving DecidableEq

/-- Modelled from the spec: `crate::WriteBatch` — a batch of put
(`some val`) and delete (`none`) operations. -/
structure WriteBatch where
  ops : List (Bytes × Option Bytes)
deriving DecidableEq

/-- Embeds `SnapshotRef(usize)`: a plain copyable integer token. -/
structure SnapshotRef where
  ref : Nat
deriving DecidableEq

/-- Modelled from the spec: an owned snapshot object returned by the store's
`get_snapshot` — a frozen copy of the store contents. -/
structure DBSnapshot where
  data : List (Bytes × Bytes)
deriving DecidableEq

/-- Modelled from the spec: the store `crate::DB` (out of scope for the
repository; §6 of the spec gives its boundary contract). Its contents are an
association list, newest binding first. -/
structure DB where
  data : List (Bytes × Bytes)
deriving DecidableEq

/-- Modelled from the spec: `get(key) → optional bytes (never an error for
absence)`. -/
def DB.get (db : DB) (key : Bytes) : Option Bytes :=
  (db.data.find? (fun p => p.1 == key)).map (fun p => p.2)

/-- Modelled from the spec: `put(key,val) → ok`; the new binding shadows any
older binding for the key. -/
def DB.put (db : DB) (key val : Bytes) : DB × Except Status Unit :=
  (⟨(key, val) :: db.data⟩, Except.ok ())

/-- Modelled from the spec: `delete(key) → ok`; removes every binding for the
key. -/
def DB.del (db : DB) (key : Bytes) : DB × Except Status Unit :=
  (⟨db.data.filter (fun p => p.1 != key)⟩, Except.ok ())

/-- Modelled from the spec: `write(batch, sync) → ok`; applies the batch
operations in order. -/
def DB.write (db : DB) (batch : WriteBatch) (_sync : Bool) : DB × Except Status Unit :=
  (batch.ops.foldl
    (fun d op =>
      match op.2 with
      | some v => (DB.put d op.1 v).1
      | none => (DB.del d op.1).1)
    db, Except.ok ())

/-- Modelled from the spec: `flush() → ok`; no observable effect on contents. -/
def DB.flush (db : DB) : DB × Except Status Unit :=
  (db, Except.ok ())

/-- Modelled from the spec: `get_snapshot() → owned snapshot object`. -/
def DB.get_snapshot (db : DB) : DBSnapshot :=
  ⟨db.data⟩

/-- Modelled from the spec: `get_at(snapshot, key) → optional bytes |
status-error`; reads from the frozen snapshot contents. -/
def DB.get_at (_db : DB) (snap : DBSnapshot) (key : Bytes) : Except Status (Option Bytes) :=
  Except.ok ((snap.data.find? (fun p => p.1 == key)).map (fun p => p.2))

/-- Modelled from the spec: `compact_range(from, to) → ok`; no observable
state change. -/
def DB.compact_range (db : DB) (_f _t : Bytes) : DB × Except Status Unit :=
  (db, Except.ok ())

/-- Embeds `enum Request` from `asyncdb.rs`. -/
inductive Request where
  | Close : Request
  | Put : Bytes → Bytes → Request
  | Delete : Bytes → Request
  | Write : WriteBatch → Bool → Request
  | Flush : Request
  | GetAt : SnapshotRef → Bytes → Request
  | Get : Bytes → Request
  | GetSnapshot : Request
  | DropSnapshot : SnapshotRef → Request
  | CompactRange : Bytes → Bytes → Request
deriving DecidableEq

/-- Embeds `enum Response` from `asyncdb.rs`. -/
inductive Response where
  | OK : Response
  | Error : Status → Response
  | Value : Option Bytes → Response
  | Snapshot : SnapshotRef → Response
deriving DecidableEq

/-- Embeds `HashMap::insert` on the snapshot registry: the new entry replaces any
existing entry with the same key. -/
def hmInsert (m : List (Nat × DBSnapshot)) (k : Nat) (v : DBSnapshot) :
    List (Nat × DBSnapshot) :=
  (k, v) :: m.filter (fun p => p.1 != k)

/-- Embeds `HashMap::remove` on the snapshot registry. -/
def hmRemove (m : List (Nat × DBSnapshot)) (k : Nat) : List (Nat × DBSnapshot) :=
  m.filter (fun p => p.1 != k)

/-- Embeds `HashMap::get` on the snapshot registry. -/
def hmGet (m : List (Nat × DBSnapshot)) (k : Nat) : Option DBSnapshot :=
  (m.find? (fun p => p.1 == k)).map (fun p => p.2)

/-- The worker's local state in `run_server`: the owned store, the snapshot
registry, the handle counter, and whether `recv.close()` has been called. -/
structure ServerState where
  db : DB
  snapshots : List (Nat × DBSnapshot)
  counter : Nat
  closed : Bool
deriving DecidableEq

/-- Embeds `fn send_response`: maps a store result to the reply sent on the
message's channel. -/
def send_response (result : Except Status Unit) : Response :=
  match result with
  | Except.error e => Response.Error e
  | Except.ok _ => Response.OK

/-- Embeds `AsyncDB::run_server`: drains the queue (modelled as the list of requests
in arrival order), dispatching each request against the store and the
registry and emitting exactly one reply per processed message. Returns the
replies in order together with the final worker state; processing stops at
`Close` (after replying `OK` and closing the receiver). -/
def run_server : ServerState → List Request → List Response × ServerState
  | st, [] => ([], st)
  | st, req :: rest =>
    match req with
    | Request.Close => ([Response.OK], { st with closed := true })
    | Request.Put key val =>
      let r := st.db.put key val
      let q := run_server { st with db := r.1 } rest
      (send_response r.2 :: q.1, q.2)
    | Request.Delete key =>
      let r := st.db.del key
      let q := run_server { st with db := r.1 } rest
      (send_response r.2 :: q.1, q.2)
    | Request.Write batch sync =>
      let r := st.db.write batch sync
      let q := run_server { st with db := r.1 } rest
      (send_response r.2 :: q.1, q.2)
    | Request.Flush =>
      let r := st.db.flush
      let q := run_server { st with db := r.1 } rest
      (send_response r.2 :: q.1, q.2)
    | Request.GetAt snapshot key =>
      let resp :=
        match hmGet st.snapshots snapshot.ref with
        | some snap =>
          (match st.db.get_at snap key with
           | Except.error e => Response.Error e
           | Except.ok v => Response.Value v)
        | none =>
          Response.Error
            ⟨StatusCode.AsyncError, "Unknown snapshot reference: this is a bug"⟩
      let q := run_server st rest
      (resp :: q.1, q.2)
    | Request.Get key =>
      let q := run_server st rest
      (Response.Value (st.db.get key) :: q.1, q.2)
    | Request.GetSnapshot =>
      let snaps := hmInsert st.snapshots st.counter st.db.get_snapshot
      let q := run_server { st with snapshots := snaps, counter := st.counter + 1 } rest
      (Response.Snapshot ⟨st.counter⟩ :: q.1, q.2)
    | Request.DropSnapshot snapshot =>
      let q := run_server { st with snapshots := hmRemove st.snapshots snapshot.ref } rest
      (send_response (Except.ok ()) :: q.1, q.2)
    | Request.CompactRange f t =>
      let r := st.db.compact_range f t
      let q := run_server { st with db := r.1 } rest
      (send_response r.2 :: q.1, q.2)

/-- The `Status` literal each client method builds on an unexpected
response variant: `StatusCode::AsyncError, "Wrong response type in AsyncDB."`. -/
def wrongResponse : Status :=
  ⟨StatusCode.AsyncError, "Wrong response type in AsyncDB."⟩

/-- Embeds `AsyncDB::process_request`, with the channel primitives (external crates)
abstracted: `sendErr = some e` models `self.send.send(m)` failing with error
text `e` (worker gone); `recvd = none` models the oneshot reply channel
closing without a value; `recvd = some r` models receiving reply `r`. -/
def process_request (sendErr : Option String) (recvd : Option Response) :
    Except Status Response :=
  match sendErr with
  | some e => Except.error ⟨StatusCode.AsyncError, e⟩
  | none =>
    match recvd with
    | none => Except.error ⟨StatusCode.AsyncError, "channel closed"⟩
    | some r => Except.ok r

namespace AsyncDB

/-- Embeds `AsyncDB::close`: response unwrapping (the `?` on `process_request`
propagates its error). -/
def close (r : Except Status Response) : Except Status Unit :=
  match r with
  | Except.error s => Except.error s
  | Except.ok Response.OK => Except.ok ()
  | Except.ok (Response.Error s) => Except.error s
  | Except.ok _ => Except.error wrongResponse

/-- Embeds `AsyncDB::put`: response unwrapping. -/
def put (r : Except Status Response) : Except Status Unit :=
  match r with
  | Except.error s => Except.error s
  | Except.ok Response.OK => Except.ok ()
  | Except.ok (Response.Error s) => Except.error s
  | Except.ok _ => Except.error wrongResponse

/-- Embeds `AsyncDB::delete`: response unwrapping. -/
def del (r : Except Status Response) : Except Status Unit :=
  match r with
  | Except.error s => Except.error s
  | Except.ok Response.OK => Except.ok ()
  | Except.ok (Response.Error s) => Except.error s
  | Except.ok _ => Except.error wrongResponse

/-- Embeds `AsyncDB::write`: response unwrapping. -/
def write (r : Except Status Response) : Except Status Unit :=
  match r with
  | Except.error s => Except.error s
  | Except.ok Response.OK => Except.ok ()
  | Except.ok (Response.Error s) => Except.error s
  | Except.ok _ => Except.error wrongResponse

/-- Embeds `AsyncDB::flush`: response unwrapping. -/
def flush (r : Except Status Response) : Except Status Unit :=
  match r with
  | Except.error s => Except.error s
  | Except.ok Response.OK => Except.ok ()
  | Except.ok (Response.Error s) => Except.error s
  | Except.ok _ => Except.error wrongResponse

/-- Embeds `AsyncDB::get`: response unwrapping. -/
def get (r : Except Status Response) : Except Status (Option Bytes) :=
  match r with
  | Except.error s => Except.error s
  | Except.ok (Response.Value v) => Except.ok v
  | Except.ok (Response.Error s) => Except.error s
  | Except.ok _ => Except.error wrongResponse

/-- Embeds `AsyncDB::get_at`: response unwrapping. -/
def get_at (r : Except Status Response) : Except Status (Option Bytes) :=
  match r with
  | Except.error s => Except.error s
  | Except.ok (Response.Value v) => Except.ok v
  | Except.ok (Response.Error s) => Except.error s
  | Except.ok _ => Except.error wrongResponse

/-- Embeds `AsyncDB::get_snapshot`: response unwrapping. Note the source has no
`Response::Error` arm here: any `Error` falls into the catch-all. -/
def get_snapshot (r : Except Status Response) : Except Status SnapshotRef :=
  match r with
  | Except.error s => Except.error s
  | Except.ok (Response.Snapshot sr) => Except.ok sr
  | Except.ok _ => Except.error wrongResponse

/-- Embeds `AsyncDB::drop_snapshot`: response unwrapping. Note the source has no
`Response::Error` arm here: any `Error` falls into the catch-all. -/
def drop_snapshot (r : Except Status Response) : Except Status Unit :=
  match r with
  | Except.error s => Except.error s
  | Except.ok Response.OK => Except.ok ()
  | Except.ok _ => Except.error wrongResponse

/-- Embeds `AsyncDB::compact_range`: response unwrapping. -/
def compact_range (r : Except Status Response) : Except Status Unit :=
  match r with
  | Except.error s => Except.error s
  | Except.ok Response.OK => Except.ok ()
  | Except.ok (Response.Error s) => Except.error s
  | Except.ok _ => Except.error wrongResponse

end AsyncDB

/-- A client-visible result carries no store-level error: either it is a
success, or its status code is `AsyncError`. -/
def onlyAsyncErrors {α : Type} (r : Except Status α) : Bool :=
  match r with
  | Except.error s => s.code == StatusCode.AsyncError
  | Except.ok _ => true

/-! Section: spec-side characterisations used by the claims -/

/-- Whether a request is a `Put` or a `Delete`. -/
def isPutOrDelete : Request → Bool
  | Request.Put _ _ => true
  | Request.Delete _ => true
  | _ => false

/-- The spec's "last put/delete for k in enqueue order": folds a request
sequence over the value currently associated with `k`, keeping the latest
`Put`/`Delete` for `k`. -/
def specLastWrite (k : Bytes) : List Request → Option Bytes → Option Bytes
  | [], acc => acc
  | Request.Put k' v :: rest, acc =>
    specLastWrite k rest (if k' = k then some v else acc)
  | Request.Delete k' :: rest, acc =>
    specLastWrite k rest (if k' = k then none else acc)
  | _ :: rest, acc => specLastWrite k rest acc

/-- The snapshot handles occurring in a reply stream, in order. -/
def snapHandles (rs : List Response) : List Nat :=
  rs.filterMap (fun r =>
    match r with
    | Response.Snapshot sr => some sr.ref
    | _ => none)

/-- The number of messages of a queue the worker dequeues and processes:
everything up to and including the first `Close`, or the whole queue if it
contains no `Close`. -/
def processedCount : List Request → Nat
  | [] => 0
  | Request.Close :: _ => 1
  | _ :: rest => processedCount rest + 1

/-! Section: step decomposition of the worker loop -/

/-- The state after the worker dispatches one (non-`Close`) request. -/
def stepS (st : ServerState) : Request → ServerState
  | Request.Close => { st with closed := true }
  | Request.Put key val => { st with db := (st.db.put key val).1 }
  | Request.Delete key => { st with db := (st.db.del key).1 }
  | Request.Write batch sync => { st with db := (st.db.write batch sync).1 }
  | Request.Flush => { st with db := st.db.flush.1 }
  | Request.GetAt _ _ => st
  | Request.Get _ => st
  | Request.GetSnapshot =>
    { st with snapshots := hmInsert st.snapshots st.counter st.db.get_snapshot,
              counter := st.counter + 1 }
  | Request.DropSnapshot snapshot =>
    { st with snapshots := hmRemove st.snapshots snapshot.ref }
  | Request.CompactRange f t => { st with db := (st.db.compact_range f t).1 }

/-- The reply the worker sends for one request. -/
def stepR (st : ServerState) : Request → Response
  | Request.Close => Response.OK
  | Request.Put key val => send_response (st.db.put key val).2
  | Request.Delete key => send_response (st.db.del key).2
  | Request.Write batch sync => send_response (st.db.write batch sync).2
  | Request.Flush => send_response st.db.flush.2
  | Request.GetAt snapshot key =>
    match hmGet st.snapshots snapshot.ref with
    | some snap =>
      (match st.db.get_at snap key with
       | Except.error e => Response.Error e
       | Except.ok v => Response.Value v)
    | none =>
      Response.Error
        ⟨StatusCode.AsyncError, "Unknown snapshot reference: this is a bug"⟩
  | Request.Get key => Response.Value (st.db.get key)
  | Request.GetSnapshot => Response.Snapshot ⟨st.counter⟩
  | Request.DropSnapshot _ => send_response (Except.ok ())
  | Request.CompactRange f t => send_response (st.db.compact_range f t).2

theorem run_server_nil (st : ServerState) : run_server st [] = ([], st) := rfl

theorem run_server_close (st : ServerState) (rest : List Request) :
    run_server st (Request.Close :: rest) =
      ([Response.OK], { st with closed := true }) := rfl

theorem run_server_cons (st : ServerState) (req : Request) (rest : List Request)
    (h : req ≠ Request.Close) :
    run_server st (req :: rest) =
      (stepR st req :: (run_server (stepS st req) rest).1,
       (run_server (stepS st req) rest).2) := by
  cases req with
  | Close => exact absurd rfl h
  | Put key val => rfl
  | Delete key => rfl
  | Write batch sync => rfl
  | Flush => rfl
  | GetAt snapshot key => rfl
  | Get key => rfl
  | GetSnapshot => rfl
  | DropSnapshot snapshot => rfl
  | CompactRange f t => rfl

theorem run_server_cons_fst (st : ServerState) (req : Request)
    (rest : List Request) (h : req ≠ Request.Close) :
    (run_server st (req :: rest)).1 =
      stepR st req :: (run_server (stepS st req) rest).1 := by
  rw [run_server_cons st req rest h]

theorem run_server_cons_snd (st : ServerState) (req : Request)
    (rest : List Request) (h : req ≠ Request.Close) :
    (run_server st (req :: rest)).2 = (run_server (stepS st req) rest).2 := by
  rw [run_server_cons st req rest h]

theorem run_server_append (l1 l2 : List Request) (st : ServerState)
    (h : Request.Close ∉ l1) :
    run_server st (l1 ++ l2) =
      ((run_server st l1).1 ++ (run_server (run_server st l1).2 l2).1,
       (run_server (run_server st l1).2 l2).2) := by
  induction l1 generalizing st with
  | nil => simp [run_server_nil]
  | cons r l1 ih =>
    have hr : r ≠ Request.Close := fun he => h (he ▸ List.mem_cons_self r l1)
    have hl : Request.Close ∉ l1 := fun hm => h (List.mem_cons_of_mem r hm)
    simp only [List.cons_append, run_server_cons _ _ _ hr, ih _ hl, List.cons_append]

/-! Section: association-list lemmas -/

theorem find_after_filter {α β : Type} [BEq α] [LawfulBEq α] [DecidableEq α]
    (l : List (α × β)) (k k' : α) :
    (l.filter (fun p => p.1 != k')).find? (fun p => p.1 == k) =
      if k' = k then none else l.find? (fun p => p.1 == k) := by
  induction l with
  | nil => by_cases h : k' = k <;> simp [h]
  | cons a l ih =>
    by_cases h1 : a.1 = k'
    · rw [List.filter_cons, if_neg (by simp [h1])]
      by_cases h2 : k' = k
      · rw [ih, if_pos h2, if_pos h2]
      · rw [ih, if_neg h2, if_neg h2,
          List.find?_cons_of_neg _ (by simp [h1, h2])]
    · rw [List.filter_cons, if_pos (by simp [h1])]
      by_cases h2 : a.1 = k
      · have hk : ¬k' = k := fun he => h1 (by rw [h2, he])
        rw [List.find?_cons_of_pos _ (by simp [h2]), if_neg hk,
          List.find?_cons_of_pos _ (by simp [h2])]
      · rw [List.find?_cons_of_neg _ (by simp [h2]), ih]
        by_cases h3 : k' = k
        · rw [if_pos h3, if_pos h3]
        · rw [if_neg h3, if_neg h3, List.find?_cons_of_neg _ (by simp [h2])]

theorem DB.get_put (db : DB) (k k' v : Bytes) :
    ((db.put k' v).1).get k = if k' = k then some v else db.get k := by
  by_cases h : k' = k
  · rw [if_pos h]
    simp only [DB.put, DB.get]
    rw [List.find?_cons_of_pos _ (by simp [h])]
    rfl
  · rw [if_neg h]
    simp only [DB.put, DB.get]
    rw [List.find?_cons_of_neg _ (by simp [h])]

theorem DB.get_del (db : DB) (k k' : Bytes) :
    ((db.del k').1).get k = if k' = k then none else db.get k := by
  simp only [DB.del, DB.get]
  rw [find_after_filter]
  by_cases h : k' = k
  · rw [if_pos h, if_pos h]
    rfl
  · rw [if_neg h, if_neg h]

theorem hmGet_hmRemove_self (m : List (Nat × DBSnapshot)) (k : Nat) :
    hmGet (hmRemove m k) k = none := by
  simp [hmGet, hmRemove, find_after_filter]

theorem hmRemove_idem (m : List (Nat × DBSnapshot)) (k : Nat) :
    hmRemove (hmRemove m k) k = hmRemove m k := by
  simp [hmRemove, List.filter_filter]

theorem hmRemove_hmInsert_self (m : List (Nat × DBSnapshot)) (k : Nat)
    (s : DBSnapshot) : hmRemove (hmInsert m k s) k = hmRemove m k := by
  simp [hmRemove, hmInsert, List.filter_cons, List.filter_filter]

/-! Section: claim theorems -/

/-- C2: for every key, the worker replies to `Get` with a `Value` response
(never an `Error`), and the client `get` turns that reply into a success:
an absent key yields `Except.ok none`, never an error. -/
theorem c2_get_always_value : ∀ (st : ServerState) (k : Bytes),
    (run_server st [Request.Get k]).1 = [Response.Value (st.db.get k)] ∧
    AsyncDB.get (Except.ok (Response.Value (st.db.get k))) =
      Except.ok (st.db.get k) ∧
    AsyncDB.get (Except.ok (Response.Value none)) = Except.ok none := by
  intro st k
  exact ⟨rfl, rfl, rfl⟩

/-- C3: a `GetAt` whose handle is not in the registry is answered with the
internal-bug `AsyncError` status, the worker state is untouched (no store
read, no stale value); in particular `GetSnapshot` then `DropSnapshot` then
`GetAt` on that same handle yields exactly that error. -/
theorem c3_getat_unknown_handle (st : ServerState) (s : SnapshotRef) (k : Bytes)
    (rest : List Request) (h : hmGet st.snapshots s.ref = none) :
    run_server st (Request.GetAt s k :: rest) =
      (Response.Error
          ⟨StatusCode.AsyncError, "Unknown snapshot reference: this is a bug"⟩
        :: (run_server st rest).1,
       (run_server st rest).2) ∧
    (run_server st [Request.GetSnapshot, Request.DropSnapshot ⟨st.counter⟩,
        Request.GetAt ⟨st.counter⟩ k]).1 =
      [Response.Snapshot ⟨st.counter⟩, Response.OK,
       Response.Error
         ⟨StatusCode.AsyncError, "Unknown snapshot reference: this is a bug"⟩] := by
  constructor
  · rw [run_server_cons st _ rest (fun hc => Request.noConfusion hc)]
    simp [stepR, stepS, h]
  · rw [run_server_cons _ _ _ (fun hc => Request.noConfusion hc),
      run_server_cons _ _ _ (fun hc => Request.noConfusion hc),
      run_server_cons _ _ _ (fun hc => Request.noConfusion hc)]
    simp [stepR, stepS, run_server_nil, hmRemove_hmInsert_self,
      hmGet_hmRemove_self, send_response]

/-- C3 witness: on the empty worker state, `GetAt ⟨0⟩` hits the registry miss
and the scenario replies exactly as the theorem states. -/
theorem c3_witness :
    run_server ⟨⟨[]⟩, [], 0, false⟩ [Request.GetAt ⟨0⟩ []] =
      (Response.Error
          ⟨StatusCode.AsyncError, "Unknown snapshot reference: this is a bug"⟩
        :: (run_server ⟨⟨[]⟩, [], 0, false⟩ []).1,
       (run_server ⟨⟨[]⟩, [], 0, false⟩ []).2) ∧
    (run_server ⟨⟨[]⟩, [], 0, false⟩ [Request.GetSnapshot,
        Request.DropSnapshot ⟨0⟩, Request.GetAt ⟨0⟩ []]).1 =
      [Response.Snapshot ⟨0⟩, Response.OK,
       Response.Error
         ⟨StatusCode.AsyncError, "Unknown snapshot reference: this is a bug"⟩] :=
  c3_getat_unknown_handle ⟨⟨[]⟩, [], 0, false⟩ ⟨0⟩ [] [] rfl

/-- C5: `DropSnapshot` removes the registry entry if present (afterwards the
handle resolves to nothing), always replies `OK` — also on an absent
handle — and processing it twice leaves the worker state exactly as
processing it once. -/
theorem c5_drop_snapshot_idempotent : ∀ (st : ServerState) (s : SnapshotRef),
    run_server st [Request.DropSnapshot s] =
      ([Response.OK], { st with snapshots := hmRemove st.snapshots s.ref }) ∧
    hmGet ((run_server st [Request.DropSnapshot s]).2).snapshots s.ref = none ∧
    (run_server st [Request.DropSnapshot s, Request.DropSnapshot s]).2 =
      (run_server st [Request.DropSnapshot s]).2 ∧
    (run_server st [Request.DropSnapshot s, Request.DropSnapshot s]).1 =
      [Response.OK, Response.OK] := by
  intro st s
  refine ⟨rfl, hmGet_hmRemove_self _ _, ?_, rfl⟩
  show ({ st with snapshots := hmRemove (hmRemove st.snapshots s.ref) s.ref }
      : ServerState) = { st with snapshots := hmRemove st.snapshots s.ref }
  rw [hmRemove_idem]

/-- C7: both failure modes of `process_request` — the send into the queue
failing (worker gone, arbitrary error text) and the reply channel closing
without a value — return an `AsyncError` status to the caller; a delivered
reply is passed through unchanged, so no store-level status and no panic can
arise in this function. -/
theorem c7_process_request_failures : ∀ (e : String) (rv : Option Response)
    (r : Response),
    process_request (some e) rv = Except.error ⟨StatusCode.AsyncError, e⟩ ∧
    process_request none none =
      Except.error ⟨StatusCode.AsyncError, "channel closed"⟩ ∧
    process_request none (some r) = Except.ok r ∧
    onlyAsyncErrors (process_request (some e) rv) = true ∧
    onlyAsyncErrors (process_request none none) = true := by
  intro e rv r
  exact ⟨rfl, rfl, rfl, rfl, rfl⟩

/-- C8: every client operation maps an unexpected `Response` variant to the
typed `wrongResponse` error — whose code `AsyncError` is distinct from any
store-level code — instead of panicking; each unexpected variant of each
operation is enumerated. -/
theorem c8_wrong_variant_protocol_error : ∀ (v : Option Bytes)
    (sr : SnapshotRef) (s : Status),
    AsyncDB.close (Except.ok (Response.Value v)) = Except.error wrongResponse ∧
    AsyncDB.close (Except.ok (Response.Snapshot sr)) = Except.error wrongResponse ∧
    AsyncDB.put (Except.ok (Response.Value v)) = Except.error wrongResponse ∧
    AsyncDB.put (Except.ok (Response.Snapshot sr)) = Except.error wrongResponse ∧
    AsyncDB.del (Except.ok (Response.Value v)) = Except.error wrongResponse ∧
    AsyncDB.del (Except.ok (Response.Snapshot sr)) = Except.error wrongResponse ∧
    AsyncDB.write (Except.ok (Response.Value v)) = Except.error wrongResponse ∧
    AsyncDB.write (Except.ok (Response.Snapshot sr)) = Except.error wrongResponse ∧
    AsyncDB.flush (Except.ok (Response.Value v)) = Except.error wrongResponse ∧
    AsyncDB.flush (Except.ok (Response.Snapshot sr)) = Except.error wrongResponse ∧
    AsyncDB.get (Except.ok Response.OK) = Except.error wrongResponse ∧
    AsyncDB.get (Except.ok (Response.Snapshot sr)) = Except.error wrongResponse ∧
    AsyncDB.get_at (Except.ok Response.OK) = Except.error wrongResponse ∧
    AsyncDB.get_at (Except.ok (Response.Snapshot sr)) = Except.error wrongResponse ∧
    AsyncDB.get_snapshot (Except.ok Response.OK) = Except.error wrongResponse ∧
    AsyncDB.get_snapshot (Except.ok (Response.Error s)) = Except.error wrongResponse ∧
    AsyncDB.get_snapshot (Except.ok (Response.Value v)) = Except.error wrongResponse ∧
    AsyncDB.drop_snapshot (Except.ok (Response.Error s)) = Except.error wrongResponse ∧
    AsyncDB.drop_snapshot (Except.ok (Response.Value v)) = Except.error wrongResponse ∧
    AsyncDB.drop_snapshot (Except.ok (Response.Snapshot sr)) = Except.error wrongResponse ∧
    AsyncDB.compact_range (Except.ok (Response.Value v)) = Except.error wrongResponse ∧
    AsyncDB.compact_range (Except.ok (Response.Snapshot sr)) = Except.error wrongResponse ∧
    wrongResponse.code = StatusCode.AsyncError := by
  intro v sr s
  exact ⟨rfl, rfl, rfl, rfl, rfl, rfl, rfl, rfl, rfl, rfl, rfl, rfl, rfl, rfl,
    rfl, rfl, rfl, rfl, rfl, rfl, rfl, rfl, rfl⟩

/-- C10: `get_snapshot` and `drop_snapshot` can only fail with async-layer
statuses: fed any outcome of `process_request`, an error result always
carries `AsyncError`, and a store-level `Error(status)` reply is not
propagated but converted to the `wrongResponse` protocol error. -/
theorem c10_snapshot_ops_no_store_errors : ∀ (se : Option String)
    (rv : Option Response) (s : Status),
    onlyAsyncErrors (AsyncDB.get_snapshot (process_request se rv)) = true ∧
    onlyAsyncErrors (AsyncDB.drop_snapshot (process_request se rv)) = true ∧
    AsyncDB.get_snapshot (Except.ok (Response.Error s)) =
      Except.error wrongResponse ∧
    AsyncDB.drop_snapshot (Except.ok (Response.Error s)) =
      Except.error wrongResponse := by
  intro se rv s
  refine ⟨?_, ?_, rfl, rfl⟩ <;>
  · cases se with
    | some e => rfl
    | none =>
      cases rv with
      | none => rfl
      | some r => cases r <;> rfl

/-- C6: processing a queue whose first `Close` sits after a `Close`-free
prefix answers every request of the prefix first, in order, then replies
`OK` to `Close`; the worker then stops — nothing after `Close` is processed,
and the final state is the state after the prefix with the receiver closed. -/
theorem c6_close_cooperative_shutdown (st : ServerState)
    (pre post : List Request) (h : Request.Close ∉ pre) :
    (run_server st (pre ++ Request.Close :: post)).1 =
      (run_server st pre).1 ++ [Response.OK] ∧
    (run_server st (pre ++ Request.Close :: post)).2 =
      { (run_server st pre).2 with closed := true } := by
  rw [run_server_append _ _ _ h, run_server_close]
  exact ⟨rfl, rfl⟩

/-- C6 witness: a put before `Close` is answered, a get after `Close` is
not, and the receiver ends up closed. -/
theorem c6_witness :
    (run_server ⟨⟨[]⟩, [], 0, false⟩
        ([Request.Put [1] [2]] ++ Request.Close :: [Request.Get [1]])).1 =
      (run_server ⟨⟨[]⟩, [], 0, false⟩ [Request.Put [1] [2]]).1 ++
        [Response.OK] ∧
    (run_server ⟨⟨[]⟩, [], 0, false⟩
        ([Request.Put [1] [2]] ++ Request.Close :: [Request.Get [1]])).2 =
      { (run_server ⟨⟨[]⟩, [], 0, false⟩ [Request.Put [1] [2]]).2 with
          closed := true } :=
  c6_close_cooperative_shutdown ⟨⟨[]⟩, [], 0, false⟩ [Request.Put [1] [2]]
    [Request.Get [1]] (by decide)

/-- C9: the worker sends exactly one reply per message it dequeues and
processes — the reply stream has exactly one entry for each message up to
and including the first `Close` and none beyond it — and a caller whose
message was never processed observes the broken reply channel as the
`AsyncError` "channel closed" status. -/
theorem c9_exactly_one_reply : ∀ (st : ServerState) (reqs : List Request),
    (run_server st reqs).1.length = processedCount reqs ∧
    process_request none none =
      Except.error ⟨StatusCode.AsyncError, "channel closed"⟩ := by
  intro st reqs
  refine ⟨?_, rfl⟩
  induction reqs generalizing st with
  | nil => rfl
  | cons r rest ih =>
    cases r
    case Close => rfl
    all_goals
      rw [run_server_cons _ _ _ (fun hc => Request.noConfusion hc)]
      simpa [processedCount] using ih _

theorem snapHandles_cons_snap (sr : SnapshotRef) (rs : List Response) :
    snapHandles (Response.Snapshot sr :: rs) = sr.ref :: snapHandles rs := rfl

theorem snapHandles_cons_other (resp : Response) (rs : List Response)
    (h : ∀ sr, resp ≠ Response.Snapshot sr) :
    snapHandles (resp :: rs) = snapHandles rs := by
  cases resp
  case Snapshot sr => exact absurd rfl (h sr)
  all_goals rfl

theorem stepR_not_snapshot (st : ServerState) (r : Request)
    (h : r ≠ Request.GetSnapshot) (sr : SnapshotRef) :
    stepR st r ≠ Response.Snapshot sr := by
  cases r
  case GetSnapshot => exact absurd rfl h
  case GetAt s k =>
    simp only [stepR]
    rcases hm : hmGet st.snapshots s.ref with _ | snap
    · exact fun hc => Response.noConfusion hc
    · rcases st.db.get_at snap k with e | v
      · exact fun hc => Response.noConfusion hc
      · exact fun hc => Response.noConfusion hc
  all_goals
    intro hc
    simp [stepR, send_response, DB.put, DB.del, DB.write, DB.flush,
      DB.compact_range] at hc

theorem stepS_counter (st : ServerState) (r : Request)
    (h : r ≠ Request.GetSnapshot) : (stepS st r).counter = st.counter := by
  cases r
  case GetSnapshot => exact absurd rfl h
  all_goals rfl

theorem snapHandles_invariant (reqs : List Request) (st : ServerState) :
    (∀ h ∈ snapHandles (run_server st reqs).1, st.counter ≤ h) ∧
    List.Pairwise (· < ·) (snapHandles (run_server st reqs).1) ∧
    st.counter ≤ ((run_server st reqs).2).counter := by
  induction reqs generalizing st with
  | nil => simp [run_server_nil, snapHandles]
  | cons r rest ih =>
    by_cases hclose : r = Request.Close
    · subst hclose
      simp [run_server_close, snapHandles]
    · rw [run_server_cons_fst _ _ _ hclose, run_server_cons_snd _ _ _ hclose]
      by_cases hsnap : r = Request.GetSnapshot
      · subst hsnap
        obtain ⟨hb, hp, hc⟩ := ih (stepS st Request.GetSnapshot)
        have hb' : ∀ h ∈ snapHandles
            (run_server (stepS st Request.GetSnapshot) rest).1,
            st.counter + 1 ≤ h := fun h hm => hb h hm
        have hc' : st.counter + 1 ≤
            ((run_server (stepS st Request.GetSnapshot) rest).2).counter := hc
        refine ⟨?_, ?_, ?_⟩
        · intro h hh
          rw [show stepR st Request.GetSnapshot =
              Response.Snapshot ⟨st.counter⟩ from rfl,
            snapHandles_cons_snap] at hh
          rcases List.mem_cons.mp hh with he | hm
          · have heq : h = st.counter := he
            omega
          · have := hb' h hm
            omega
        · rw [show stepR st Request.GetSnapshot =
              Response.Snapshot ⟨st.counter⟩ from rfl,
            snapHandles_cons_snap]
          refine List.pairwise_cons.mpr ⟨?_, hp⟩
          intro h hm
          have := hb' h hm
          show st.counter < h
          omega
        · omega
      · obtain ⟨hb, hp, hc⟩ := ih (stepS st r)
        rw [stepS_counter st r hsnap] at hb hc
        rw [snapHandles_cons_other _ _ (stepR_not_snapshot st r hsnap)]
        exact ⟨hb, hp, hc⟩

/-- C4: snapshot handles are unique for the worker's lifetime: the handles a
worker replies over any queue are strictly increasing (hence pairwise
distinct — no two `GetSnapshot` requests get the same handle, and no handle
is reused), and the registry counter never decreases. -/
theorem c4_snapshot_handles_unique : ∀ (st : ServerState) (reqs : List Request),
    List.Pairwise (· < ·) (snapHandles (run_server st reqs).1) ∧
    (snapHandles (run_server st reqs).1).Nodup ∧
    st.counter ≤ ((run_server st reqs).2).counter := by
  intro st reqs
  obtain ⟨_, hp, hc⟩ := snapHandles_invariant reqs st
  exact ⟨hp, hp.imp Nat.ne_of_lt, hc⟩

theorem final_db_get (k : Bytes) (ops : List Request) (st : ServerState)
    (h : ops.all isPutOrDelete = true) :
    ((run_server st ops).2).db.get k = specLastWrite k ops (st.db.get k) := by
  induction ops generalizing st with
  | nil => rfl
  | cons r rest ih =>
    have hr : isPutOrDelete r = true ∧ rest.all isPutOrDelete = true := by
      simpa [List.all_cons] using h
    cases r
    case Put k' v =>
      rw [run_server_cons_snd _ _ _ (fun hc => Request.noConfusion hc),
        ih _ hr.2]
      simp [stepS, specLastWrite, DB.get_put]
    case Delete k' =>
      rw [run_server_cons_snd _ _ _ (fun hc => Request.noConfusion hc),
        ih _ hr.2]
      simp [stepS, specLastWrite, DB.get_del]
    all_goals exact absurd hr.1 (by simp [isPutOrDelete])

/-- C1: after the worker processes any FIFO sequence of `Put`/`Delete`
requests, a `Get k` replies with the value of the last `Put`/`Delete` for
`k` in queue order (as computed by the spec-side fold `specLastWrite`): no
lost updates and no reordering. -/
theorem c1_last_write_wins (st : ServerState) (ops : List Request) (k : Bytes)
    (h : ops.all isPutOrDelete = true) :
    (run_server st (ops ++ [Request.Get k])).1 =
      (run_server st ops).1 ++
        [Response.Value (specLastWrite k ops (st.db.get k))] := by
  have hnc : Request.Close ∉ ops := by
    intro hm
    have := List.all_eq_true.mp h _ hm
    simp [isPutOrDelete] at this
  have h2 : (run_server (run_server st ops).2 [Request.Get k]).1 =
      [Response.Value (((run_server st ops).2).db.get k)] := rfl
  rw [run_server_append _ _ _ hnc, h2, final_db_get k ops st h]

/-- C1 witness: puts and deletes on keys `[1]` and `[2]` followed by
`Get [1]`; the reply is the value of the last put for `[1]`. -/
theorem c1_witness :
    ([Request.Put [1] [10], Request.Put [2] [7], Request.Delete [1],
        Request.Put [1] [20]].all isPutOrDelete = true) ∧
    (run_server ⟨⟨[]⟩, [], 0, false⟩
        ([Request.Put [1] [10], Request.Put [2] [7], Request.Delete [1],
          Request.Put [1] [20]] ++ [Request.Get [1]])).1 =
      (run_server ⟨⟨[]⟩, [], 0, false⟩
        [Request.Put [1] [10], Request.Put [2] [7], Request.Delete [1],
          Request.Put [1] [20]]).1 ++
        [Response.Value (specLastWrite [1]
          [Request.Put [1] [10], Request.Put [2] [7], Request.Delete [1],
            Request.Put [1] [20]]
          ((⟨⟨[]⟩, [], 0, false⟩ : ServerState).db.get [1]))] :=
  ⟨by decide,
   c1_last_write_wins ⟨⟨[]⟩, [], 0, false⟩
     [Request.Put [1] [10], Request.Put [2] [7], Request.Delete [1],
       Request.Put [1] [20]] [1] (by decide)⟩

end AsyncDb
